import Mathlib

/-!
Verification of the stat-benchmark utility (src/stat-benchmark/stat-benchmark.cxx).

The development shallowly embeds the program's core components:
the timestamp sentinels, the timestamp/duration formatting mini-language
(the two to_stream overloads), the metadata query mechanisms (the entry_tm
variants), the recursive traversal with optional cross-checking (the
iterate variants), and the top-level stat/iter invocation shapes.

Modelling conventions:
- timestamps and durations carry the clock's tick count; ticks are modelled
  at nanosecond resolution (POSIX system_clock) as Int for time points and
  Nat for nonnegative elapsed durations;
- the host's locale-aware formatter (std::put_time over the tm computed once
  per call) is an abstract total function on the delegated chunk text;
  output text is modelled as List Char;
- fatal conditions (throw failed) are Except errors; the partial text
  already written to the stream before an abort is not modelled, since the
  invocation fails regardless and produces no result;
- host calls (stat, GetFileAttributes*, FindFirstFile/FindNextFile, readdir)
  are oracles passed as function arguments.
-/

namespace StatBenchmark

/-- Sentinel tick value for an unknown timestamp (timestamp (duration (-1))). -/
def timestamp_unknown : Int := -1

/-- Sentinel tick value for a nonexistent entry (timestamp (duration (0))). -/
def timestamp_nonexistent : Int := 0

/-- Sentinel tick value reserved for future use (timestamp (duration (1))). -/
def timestamp_unreal : Int := 1

/-- Pair of modification and access timestamps describing one filesystem
entry, mirroring struct entry_time. -/
structure entry_time where
  modification : Int
  access : Int
deriving DecidableEq, Repr

/-- Decimal digit character for a value below 10. -/
def digitChar (n : Nat) : Char := Char.ofNat (48 + n)

/-- Decimal digits (most significant first) of a number; empty for 0. -/
def decDigits : Nat → List Char
  | 0 => []
  | n + 1 => decDigits ((n + 1) / 10) ++ [digitChar ((n + 1) % 10)]
decreasing_by exact Nat.div_lt_self (Nat.succ_pos n) (by omega)

/-- Decimal rendering of a natural number, as ostream insertion with the
dec base flag produces it. -/
def decRepr (n : Nat) : List Char :=
  if n = 0 then ['0'] else decDigits n

/-- Decimal rendering of a signed value, sign first. -/
def intDecRepr (r : Int) : List Char :=
  if r < 0 then '-' :: decRepr r.natAbs else decRepr r.toNat

/-- Text produced for a value inserted under setw (9), fill ('0') and right
adjustment: fill characters are added on the left up to field width 9. -/
def padNine (r : Int) : List Char :=
  List.replicate (9 - (intDecRepr r).length) '0' ++ intDecRepr r

/-- The same nine-wide zero-filled field for a nonnegative value. -/
def padNineNat (n : Nat) : List Char :=
  List.replicate (9 - (decRepr n).length) '0' ++ decRepr n

/-- Fatal conditions raised while formatting a timestamp: the format string
overflowing the fixed 256-byte buffer, a malformed custom directive (both
reported via errno_msg (EINVAL)), or a nonzero stream width encountered
together with the nanosecond directive. -/
inductive fmt_error where
  | too_long
  | malformed
  | padding
deriving DecidableEq, Repr

/-- The print () helper of to_stream (timestamp): the pending chunk
fmt[i..j) is delegated to the host formatter (std::put_time over the
already-computed tm) only when it is nonempty. -/
def flushChunk (sigma : List Char → List Char) (acc : List Char) : List Char :=
  if acc = [] then [] else sigma acc

/-- Text of an optional single separator character. -/
def sepText (sep : Option Char) : List Char :=
  match sep with
  | some d => [d]
  | none => []

/-- Text emitted for one parsed nanosecond directive with optional
separator: nothing when the remainder is zero, otherwise the separator
(when present) followed by the remainder under setw (9) / fill ('0'). -/
def nsField (sep : Option Char) (r : Int) : List Char :=
  if r = 0 then [] else sepText sep ++ padNine r

/-- The format-string scanning loop of to_stream (timestamp): acc is the
pending chunk for the host formatter, w the stream's output width at entry,
r the nanosecond remainder of the printed timestamp. A percent escape whose
second character is not an opening bracket stays inside the delegated chunk
(so a doubled percent is forwarded verbatim for the host formatter to turn
into a literal percent); the custom nanosecond directive is parsed and
rendered here, with the width check made before the directive is parsed. -/
def scanFmt (sigma : List Char → List Char) (r : Int) (w : Nat) :
    List Char → List Char → Except fmt_error (List Char)
  | acc, [] => .ok (flushChunk sigma acc)
  | acc, '%' :: '[' :: 'N' :: ']' :: rest =>
    if w ≠ 0 then .error .padding
    else
      match scanFmt sigma r w [] rest with
      | .error e => .error e
      | .ok out => .ok (flushChunk sigma acc ++ nsField none r ++ out)
  | _, '%' :: '[' :: 'N' :: _ =>
    if w ≠ 0 then .error .padding else .error .malformed
  | acc, '%' :: '[' :: d :: 'N' :: ']' :: rest =>
    if w ≠ 0 then .error .padding
    else
      match scanFmt sigma r w [] rest with
      | .error e => .error e
      | .ok out => .ok (flushChunk sigma acc ++ nsField (some d) r ++ out)
  | _, '%' :: '[' :: _ =>
    if w ≠ 0 then .error .padding else .error .malformed
  | acc, '%' :: c2 :: rest2 => scanFmt sigma r w (acc ++ ['%', c2]) rest2
  | acc, ['%'] => .ok (flushChunk sigma (acc ++ ['%']))
  | acc, c :: rest => scanFmt sigma r w (acc ++ [c]) rest

/-- Seconds part of a timestamp, as system_clock::to_time_t computes it
(integral division truncating toward zero). -/
def tsSeconds (ts : Int) : Int := Int.tdiv ts 1000000000

/-- Nanosecond remainder of a timestamp beyond its whole seconds. -/
def tsNanos (ts : Int) : Int := ts - tsSeconds ts * 1000000000

/-- The to_stream (timestamp) entry point: the three sentinel values are
rendered as literal tags when special rendering is requested, before any
date/time machinery runs; otherwise the format string is checked against
the fixed 256-byte buffer and scanned chunk by chunk. -/
def to_stream_timestamp (sigma : List Char → List Char) (ts : Int)
    (format : List Char) (special : Bool) (w : Nat) :
    Except fmt_error (List Char) :=
  if special = true ∧ ts = timestamp_unknown then .ok ("<unknown>".toList)
  else if special = true ∧ ts = timestamp_nonexistent then .ok ("<nonexistent>".toList)
  else if special = true ∧ ts = timestamp_unreal then .ok ("<unreal>".toList)
  else if format.length + 1 > 256 then .error .too_long
  else scanFmt sigma (tsNanos ts) w [] format

/-- Broken-down civil time: the fields of struct tm the duration
formatter touches. -/
structure Tm where
  sec : Int
  min : Int
  hour : Int
  mday : Int
  mon : Int
  year : Int
deriving DecidableEq, Repr

/-- The to_stream (duration) overload: the coarsest applicable unit is
chosen by magnitude thresholds on the whole-second value t, the host
formatter strf renders the calendar-relative layout over the gmtime
breakdown (with day, month and year made zero-based where applicable), a
nonzero nanosecond remainder is appended after a decimal point when
requested, and the literal unit name follows after a space. -/
def to_stream_duration (gmt : Nat → Tm) (strf : Tm → String → List Char)
    (d : Nat) (ns : Bool) : List Char :=
  let t : Nat := d / 1000000000
  let fu : Option String × String :=
    if t ≥ 365 * 24 * 60 * 60 then (some "%Y-%m-%d %H:%M:%S", "years")
    else if t ≥ 31 * 24 * 60 * 60 then (some "%m-%d %H:%M:%S", "months")
    else if t ≥ 24 * 60 * 60 then (some "%d %H:%M:%S", "days")
    else if t ≥ 60 * 60 then (some "%H:%M:%S", "hours")
    else if t ≥ 60 then (some "%M:%S", "minutes")
    else if t ≥ 1 then (some "%S", "seconds")
    else (none, if ns then "nanoseconds" else "seconds")
  let body : List Char :=
    match fu.1 with
    | some f =>
      let tm0 := gmt t
      let tm1 := if t ≥ 24 * 60 * 60 then { tm0 with mday := tm0.mday - 1 } else tm0
      let tm2 := if t ≥ 31 * 24 * 60 * 60 then { tm1 with mon := tm1.mon - 1 } else tm1
      let tm3 := if t ≥ 365 * 24 * 60 * 60 then { tm2 with year := tm2.year - 1970 } else tm2
      strf tm3 f
    | none => []
  let nsec : Nat := d - t * 1000000000
  let tail : List Char :=
    if ns then
      if nsec ≠ 0 then
        match fu.1 with
        | some _ => '.' :: padNineNat nsec
        | none => decRepr nsec
      else if fu.1 = none then ['0'] else []
    else if fu.1 = none then ['0'] else []
  body ++ tail ++ ' ' :: fu.2.toList

/-- Outcome of one host stat () call: the raw second and nanosecond fields
for the modification and access times, or the host's errno value. -/
inductive stat_result where
  | ok (msec : Int) (mnsec : Int) (asec : Int) (ansec : Int)
  | err (errno : Nat)
deriving DecidableEq, Repr

/-- The ENOENT errno value. -/
def ENOENT : Nat := 2

/-- The ENOTDIR errno value. -/
def ENOTDIR : Nat := 20

/-- Conversion of one stat time field pair to a timestamp, mirroring the
local tm lambda in entry_tm: from_time_t of the seconds plus the
nanosecond remainder. -/
def statTm (sec nsec : Int) : Int := sec * 1000000000 + nsec

/-- entry_tm for cmd_stat::stat (POSIX): a failing stat () with errno
ENOENT or ENOTDIR yields the nonexistent sentinel pair, any other failure
is fatal, and success converts both time fields. -/
def entry_tm_stat (host : String → stat_result) (p : String) :
    Except Unit entry_time :=
  match host p with
  | .err e =>
    if e = ENOENT ∨ e = ENOTDIR then
      .ok ⟨timestamp_nonexistent, timestamp_nonexistent⟩
    else .error ()
  | .ok msec mnsec asec ansec => .ok ⟨statTm msec mnsec, statTm asec ansec⟩

/-- The INVALID_FILE_ATTRIBUTES value (all bits of a 32-bit word set). -/
def INVALID_FILE_ATTRIBUTES : Nat := 4294967295

/-- The ERROR_FILE_NOT_FOUND system error code. -/
def ERROR_FILE_NOT_FOUND : Nat := 2

/-- entry_tm for cmd_stat::attrs (Windows): GetFileAttributesA either
fails, which is fatal whatever the error code, or succeeds, in which case
no time information is available and the nonexistent sentinel pair is
returned. The host oracle yields the attribute word. -/
def entry_tm_attrs (host : String → Nat) (p : String) :
    Except Unit entry_time :=
  if host p = INVALID_FILE_ATTRIBUTES then .error ()
  else .ok ⟨timestamp_nonexistent, timestamp_nonexistent⟩

/-- Outcome of GetFileAttributesExA or GetFileInformationByHandle: the two
FILETIME words (100-nanosecond ticks since the Windows epoch, unsigned
64-bit), or failure with the system error code. -/
inductive win_attrs_result where
  | ok (ftLastWrite : Nat) (ftLastAccess : Nat)
  | fail (code : Nat)
deriving DecidableEq, Repr

/-- Two's-complement reading of an unsigned 64-bit value as the signed
chrono representation. -/
def toInt64 (n : Nat) : Int :=
  if n % 2 ^ 64 < 2 ^ 63 then (n % 2 ^ 64 : Int)
  else (n % 2 ^ 64 : Int) - 2 ^ 64

/-- The FILETIME conversion lambda tm: shift from the Windows epoch to the
UNIX epoch and scale to nanoseconds in wrapping unsigned 64-bit
arithmetic, then duration_cast the signed nanosecond count to the
100-nanosecond tick unit of the Windows system_clock. -/
def winTm (ft : Nat) : Int :=
  Int.tdiv (toInt64 ((ft + 2 ^ 64 - 11644473600 * 10000000) % 2 ^ 64 * 100)) 100

/-- entry_tm for cmd_stat::attrs_ex (Windows): any failure of
GetFileAttributesExA, a not-found condition included, is fatal; success
converts the two FILETIME fields. -/
def entry_tm_attrs_ex (host : String → win_attrs_result) (p : String) :
    Except Unit entry_time :=
  match host p with
  | .fail _ => .error ()
  | .ok ftw fta => .ok ⟨winTm ftw, winTm fta⟩

/-- One node of the filesystem tree as the enumeration mechanisms see it:
the entry name, the modification and access times the bulk enumeration
reports for it, and, for a directory, the entries of the level below.
The synthetic dot entries may appear in a listing like any other name. -/
inductive FSEntry where
  | file (name : String) (t : entry_time)
  | dir (name : String) (t : entry_time) (children : List FSEntry)
deriving Repr

/-- Fatal conditions of one traversal: a cross-check mismatch carrying the
reported path (with a trailing separator for a directory) and both
entry_time values (enumeration first, independent query second), or a
failing host call. -/
inductive iter_error where
  | mismatch (path : String) (enumTm : entry_time) (queryTm : entry_time)
  | hostFail
deriving DecidableEq, Repr

/-- The cross-check consistency rule of iterate (cmd_iter::native): equal
modification times, and an enumeration access time no later than the
re-queried access time. -/
def consistent (a b : entry_time) : Prop :=
  a.modification = b.modification ∧ a.access ≤ b.access

instance (a b : entry_time) : Decidable (consistent a b) :=
  instDecidableAnd

/-- The per-entry cross-check block of iterate (cmd_iter::native): when a
second query mechanism is configured, re-query the entry by path and abort
with a mismatch -- reporting both entry_time values and the path, with a
trailing backslash when the entry is a directory -- unless the two results
are consistent; a failing re-query aborts as a host failure. -/
def crossCheck (q : Option (String → Except Unit entry_time)) (p : String)
    (isDir : Bool) (t : entry_time) : Except iter_error Unit :=
  match q with
  | none => .ok ()
  | some qf =>
    match qf p with
    | .error _ => .error .hostFail
    | .ok et =>
      if consistent t et then .ok ()
      else .error (.mismatch (p ++ if isDir then "\\" else "") t et)

/-- iterate for cmd_iter::native and cmd_iter::native_ex (Windows): scan
one directory level in enumeration order, skip the dot entries, count each
remaining entry once, cross-check it when a second query mechanism is
configured, and recurse into a directory only after it has been counted
and checked. The running count is threaded through and returned. -/
def iterate_native (q : Option (String → Except Unit entry_time)) :
    String → List FSEntry → Nat → Except iter_error Nat
  | _, [], c => .ok c
  | d, FSEntry.file n t :: rest, c =>
    if n = "." ∨ n = ".." then iterate_native q d rest c
    else
      match crossCheck q (d ++ "\\" ++ n) false t with
      | .error e => .error e
      | .ok _ => iterate_native q d rest (c + 1)
  | d, FSEntry.dir n t ch :: rest, c =>
    if n = "." ∨ n = ".." then iterate_native q d rest c
    else
      match crossCheck q (d ++ "\\" ++ n) true t with
      | .error e => .error e
      | .ok _ =>
        match iterate_native q (d ++ "\\" ++ n) ch (c + 1) with
        | .error e => .error e
        | .ok c2 => iterate_native q d rest c2

/-- The per-entry query of iterate (cmd_iter::opendir): when a stat
mechanism is configured the entry is re-queried by path (a failing query
is fatal), but the result is kept only for optional printing: nothing is
compared. -/
def opendirQuery (q : Option (String → Except Unit entry_time)) (p : String) :
    Except iter_error Unit :=
  match q with
  | none => .ok ()
  | some qf =>
    match qf p with
    | .error _ => .error .hostFail
    | .ok _ => .ok ()

/-- iterate for cmd_iter::opendir (POSIX): scan one directory level in
readdir order, skip the dot entries, count each remaining entry once,
re-query it when a stat mechanism is configured (readdir reports no
timestamps, so no comparison is possible or made), and recurse into a
directory after counting. -/
def iterate_opendir (q : Option (String → Except Unit entry_time)) :
    String → List FSEntry → Nat → Except iter_error Nat
  | _, [], c => .ok c
  | d, FSEntry.file n _ :: rest, c =>
    if n = "." ∨ n = ".." then iterate_opendir q d rest c
    else
      match opendirQuery q (d ++ "/" ++ n) with
      | .error e => .error e
      | .ok _ => iterate_opendir q d rest (c + 1)
  | d, FSEntry.dir n _ ch :: rest, c =>
    if n = "." ∨ n = ".." then iterate_opendir q d rest c
    else
      match opendirQuery q (d ++ "/" ++ n) with
      | .error e => .error e
      | .ok _ =>
        match iterate_opendir q (d ++ "/" ++ n) ch (c + 1) with
        | .error e => .error e
        | .ok c2 => iterate_opendir q d rest c2

/-- Number of entries other than the dot entries across all levels of a
directory listing, each counted once; a skipped dot entry contributes
nothing, its subtree included, exactly as the traversal never descends
into one. -/
def countNonDot : List FSEntry → Nat
  | [] => 0
  | FSEntry.file n _ :: rest =>
    (if n = "." ∨ n = ".." then 0 else 1) + countNonDot rest
  | FSEntry.dir n _ ch :: rest =>
    (if n = "." ∨ n = ".." then 0 else 1 + countNonDot ch) + countNonDot rest

/-- All (enumeration time, re-queried time) pairs the native traversal
compares over a tree: one pair per non-dot entry whose re-query succeeds,
in visitation order. -/
def crossPairs (qf : String → Except Unit entry_time) :
    String → List FSEntry → List (entry_time × entry_time)
  | _, [] => []
  | d, FSEntry.file n t :: rest =>
    if n = "." ∨ n = ".." then crossPairs qf d rest
    else
      (match qf (d ++ "\\" ++ n) with
       | .ok et => [(t, et)]
       | .error _ => []) ++ crossPairs qf d rest
  | d, FSEntry.dir n t ch :: rest =>
    if n = "." ∨ n = ".." then crossPairs qf d rest
    else
      (match qf (d ++ "\\" ++ n) with
       | .ok et => [(t, et)]
       | .error _ => []) ++ crossPairs qf (d ++ "\\" ++ n) ch ++ crossPairs qf d rest

/-- Result of one timed invocation: the entry count and the per-entry
average, the elapsed time divided by the count at nanosecond
granularity. -/
structure run_result where
  count : Nat
  perEntry : Nat
deriving DecidableEq, Repr

/-- Fatal conditions of one invocation. -/
inductive run_error where
  | emptyInput
  | queryFail
  | mismatchTimes (path : String) (enumTm : entry_time) (queryTm : entry_time)
deriving DecidableEq, Repr

/-- Translation of a traversal abort into the invocation's outcome. -/
def liftIterError : iter_error → run_error
  | .mismatch p a b => .mismatchTimes p a b
  | .hostFail => .queryFail

/-- The getline loop of the stat command: query every listed path in
order, counting each line; a fatal query aborts the invocation. -/
def statLoop (q : String → Except Unit entry_time) :
    List String → Nat → Except run_error Nat
  | [], c => .ok c
  | p :: rest, c =>
    match q p with
    | .error _ => .error .queryFail
    | .ok _ => statLoop q rest (c + 1)

/-- The stat command (cmd::stat): query each listed path, fail when no
entries were processed, otherwise report the count and the per-entry
average of the elapsed time. -/
def runStat (elapsed : Nat) (q : String → Except Unit entry_time)
    (lines : List String) : Except run_error run_result :=
  match statLoop q lines 0 with
  | .error e => .error e
  | .ok c => if c = 0 then .error .emptyInput else .ok ⟨c, elapsed / c⟩

/-- The iter command (cmd::iter) over the native enumeration: run the
traversal from the root, fail when it aborted or when no entries were
counted, otherwise report the count and per-entry average. -/
def runIterNative (elapsed : Nat)
    (q : Option (String → Except Unit entry_time)) (root : String)
    (listing : List FSEntry) : Except run_error run_result :=
  match iterate_native q root listing 0 with
  | .error e => .error (liftIterError e)
  | .ok c => if c = 0 then .error .emptyInput else .ok ⟨c, elapsed / c⟩

/-- The iter command (cmd::iter) over the opendir enumeration. -/
def runIterOpendir (elapsed : Nat)
    (q : Option (String → Except Unit entry_time)) (root : String)
    (listing : List FSEntry) : Except run_error run_result :=
  match iterate_opendir q root listing 0 with
  | .error e => .error (liftIterError e)
  | .ok c => if c = 0 then .error .emptyInput else .ok ⟨c, elapsed / c⟩

/-- Process exit status of one invocation: zero on success, one on any
fatal condition (main catches failed and returns 1). -/
def exitCode (r : Except run_error run_result) : Nat :=
  match r with
  | .ok _ => 0
  | .error _ => 1

/-- Host oracle for the C2 scenario: three paths exist with real times,
one is missing (stat fails with errno ENOENT). -/
def scenarioHost : String → stat_result := fun p =>
  if p = "gone" then .err ENOENT else .ok 100 1 200 2

/-- Path list for the C2 scenario: three existing paths and a missing
one. -/
def scenarioLines : List String := ["f1", "f2", "f3", "gone"]

/-- Text of one nanosecond directive with its optional separator
character. -/
def nsDirective (sep : Option Char) : List Char :=
  '%' :: '[' :: (sepText sep ++ ['N', ']'])

/-- C5: for each of the three sentinel timestamp values, formatting with
special mode enabled yields exactly the corresponding literal tag; the
result is independent of the format string, of the host date/time
formatter sigma and of the stream width, so no date/time formatting
machinery is ever consulted. -/
theorem c5_sentinel_special_tags (sigma : List Char → List Char)
    (format : List Char) (w : Nat) :
    to_stream_timestamp sigma timestamp_unknown format true w =
      .ok ("<unknown>".toList) ∧
    to_stream_timestamp sigma timestamp_nonexistent format true w =
      .ok ("<nonexistent>".toList) ∧
    to_stream_timestamp sigma timestamp_unreal format true w =
      .ok ("<unreal>".toList) := by
  refine ⟨?_, ?_, ?_⟩ <;>
    simp [to_stream_timestamp, timestamp_unknown, timestamp_nonexistent,
      timestamp_unreal]

/-- C6: in both the stat mode and the iter mode (either enumeration
mechanism), processing zero entries is a fatal empty-input condition: the
invocation yields an error rather than a result, so no per-entry average
is computed, and the process exit status is 1. -/
theorem c6_empty_input_fatal (elapsed : Nat)
    (q : String → Except Unit entry_time)
    (q2 : Option (String → Except Unit entry_time)) (root : String) :
    runStat elapsed q [] = .error .emptyInput ∧
    exitCode (runStat elapsed q []) = 1 ∧
    runIterNative elapsed q2 root [] = .error .emptyInput ∧
    exitCode (runIterNative elapsed q2 root []) = 1 ∧
    runIterOpendir elapsed q2 root [] = .error .emptyInput ∧
    exitCode (runIterOpendir elapsed q2 root []) = 1 := by
  refine ⟨?_, ?_, ?_, ?_, ?_, ?_⟩ <;>
    simp [runStat, runIterNative, runIterOpendir, statLoop, iterate_native,
      iterate_opendir, exitCode]

/-- C9: whenever the Windows attributes-only query mechanism
(cmd_stat::attrs, the -a selector) succeeds, it returns the nonexistent
sentinel for both the modification and the access time, never a real
timestamp, so it measures query latency only. -/
theorem c9_attrs_query_only_sentinels (host : String → Nat) (p : String)
    (et : entry_time) (h : entry_tm_attrs host p = .ok et) :
    et.modification = timestamp_nonexistent ∧
    et.access = timestamp_nonexistent := by
  unfold entry_tm_attrs at h
  by_cases hh : host p = INVALID_FILE_ATTRIBUTES
  · rw [if_pos hh] at h
    exact absurd h (by simp)
  · rw [if_neg hh] at h
    have := Except.ok.inj h
    subst this
    exact ⟨rfl, rfl⟩

/-- Witness for C9: a concrete host whose attribute word is 32 makes the
attrs query succeed, and the returned pair is the sentinel pair. -/
theorem c9_attrs_query_only_sentinels_witness :
    entry_time.modification ⟨timestamp_nonexistent, timestamp_nonexistent⟩ =
      timestamp_nonexistent ∧
    entry_time.access ⟨timestamp_nonexistent, timestamp_nonexistent⟩ =
      timestamp_nonexistent :=
  c9_attrs_query_only_sentinels (fun _ => 32) "f"
    ⟨timestamp_nonexistent, timestamp_nonexistent⟩ rfl

/-- C2 counterexample: under the Windows attrs_ex query mechanism (one of
the two entry_tm implementations the claim covers), a host not-found
condition -- GetFileAttributesExA failing with ERROR_FILE_NOT_FOUND -- is
a fatal error, not the nonexistent sentinel pair: the claim that a
not-found condition is never fatal fails at this input. -/
theorem c2_attrs_ex_notfound_fatal_counterexample :
    entry_tm_attrs_ex (fun _ => .fail ERROR_FILE_NOT_FOUND) "missing" =
      .error () := rfl

/-- C2 (amended): under the POSIX stat mechanism a host not-found
condition (errno ENOENT or ENOTDIR) is reported as the nonexistent
sentinel pair and is never fatal, so processing proceeds past missing
entries; the scenario list of three existing paths and one missing path
yields count 4 with no fatal error, the missing entry's result being the
sentinel pair. (Under the Windows mechanisms any query failure is fatal,
the not-found condition included.) -/
theorem c2_stat_notfound_sentinels (host : String → stat_result) (p : String) :
    (host p = .err ENOENT → entry_tm_stat host p =
      .ok ⟨timestamp_nonexistent, timestamp_nonexistent⟩) ∧
    (host p = .err ENOTDIR → entry_tm_stat host p =
      .ok ⟨timestamp_nonexistent, timestamp_nonexistent⟩) ∧
    (∀ elapsed, runStat elapsed (entry_tm_stat scenarioHost) scenarioLines =
      .ok ⟨4, elapsed / 4⟩) ∧
    entry_tm_stat scenarioHost "gone" =
      .ok ⟨timestamp_nonexistent, timestamp_nonexistent⟩ := by
  refine ⟨?_, ?_, fun elapsed => rfl, rfl⟩
  · intro h
    simp [entry_tm_stat, h, ENOENT]
  · intro h
    simp [entry_tm_stat, h, ENOTDIR]

/-- Witness for C2: at a host that reports ENOENT for every path, the
stat query yields the sentinel pair rather than an error. -/
theorem c2_stat_notfound_sentinels_witness :
    entry_tm_stat (fun _ => .err ENOENT) "x" =
      .ok ⟨timestamp_nonexistent, timestamp_nonexistent⟩ :=
  (c2_stat_notfound_sentinels (fun _ => .err ENOENT) "x").1 rfl

/-- The scanning loop itself never raises the buffer-overflow condition:
its only errors are the malformed-directive and padding conditions. -/
theorem scanFmt_ne_too_long (sigma : List Char → List Char) (r : Int)
    (w : Nat) : ∀ (acc l : List Char),
    scanFmt sigma r w acc l ≠ .error .too_long := by
  intro acc l
  induction acc, l using scanFmt.induct sigma r w <;> simp_all [scanFmt]

/-- C10: the timestamp formatter rejects a format string of 256 or more
characters with the buffer-overflow error before scanning it or producing
any output (whenever the sentinel shortcut does not bypass formatting
altogether), and a format string of at most 255 characters is never
rejected for length. -/
theorem c10_format_length_limit (sigma : List Char → List Char) (ts : Int)
    (format : List Char) (special : Bool) (w : Nat) :
    (¬ (special = true ∧ (ts = timestamp_unknown ∨ ts = timestamp_nonexistent ∨
        ts = timestamp_unreal)) →
      256 ≤ format.length →
      to_stream_timestamp sigma ts format special w = .error .too_long) ∧
    (format.length ≤ 255 →
      to_stream_timestamp sigma ts format special w ≠ .error .too_long) := by
  constructor
  · intro hs hlen
    have h1 : ¬ (special = true ∧ ts = timestamp_unknown) :=
      fun h => hs ⟨h.1, .inl h.2⟩
    have h2 : ¬ (special = true ∧ ts = timestamp_nonexistent) :=
      fun h => hs ⟨h.1, .inr (.inl h.2)⟩
    have h3 : ¬ (special = true ∧ ts = timestamp_unreal) :=
      fun h => hs ⟨h.1, .inr (.inr h.2)⟩
    unfold to_stream_timestamp
    rw [if_neg h1, if_neg h2, if_neg h3, if_pos (by omega)]
  · intro hlen
    unfold to_stream_timestamp
    split_ifs with h1 h2 h3 h4
    · simp
    · simp
    · simp
    · exact absurd h4 (by omega)
    · exact scanFmt_ne_too_long sigma (tsNanos ts) w [] format

/-- Witness for C10: a concrete 256-character format string is rejected
with the buffer-overflow error, at a non-sentinel timestamp. -/
theorem c10_format_length_limit_witness :
    to_stream_timestamp (fun l => l) 5 (List.replicate 256 'a') false 0 =
      .error .too_long :=
  (c10_format_length_limit (fun l => l) 5 (List.replicate 256 'a') false 0).1
    (by simp) (by rw [List.length_replicate])

/-- Helper: a successful native traversal adds exactly the number of
non-dot entries of the listing to the running count. -/
theorem iterate_native_count (q : Option (String → Except Unit entry_time))
    (d : String) (es : List FSEntry) (c : Nat) :
    ∀ n, iterate_native q d es c = .ok n → n = c + countNonDot es := by
  induction d, es, c using iterate_native.induct q <;>
    intro n h <;> simp_all [iterate_native, countNonDot] <;> omega

theorem iterate_opendir_count (q : Option (String → Except Unit entry_time))
    (d : String) (es : List FSEntry) (c : Nat) :
    ∀ n, iterate_opendir q d es c = .ok n → n = c + countNonDot es := by
  induction d, es, c using iterate_opendir.induct q <;>
    intro n h <;> simp_all [iterate_opendir, countNonDot] <;> omega

theorem crossCheck_mismatch_not_consistent
    (q : Option (String → Except Unit entry_time)) (p p2 : String)
    (isDir : Bool) (t a b : entry_time)
    (h : crossCheck q p isDir t = .error (.mismatch p2 a b)) :
    ¬ consistent a b := by
  unfold crossCheck at h
  match q with
  | none => simp at h
  | some qf =>
    match hq : qf p with
    | .error e => simp [hq] at h
    | .ok et =>
      simp only [hq] at h
      by_cases hc : consistent t et
      · simp [hc] at h
      · simp [hc] at h
        obtain ⟨-, h2, h3⟩ := h
        subst h2
        subst h3
        exact hc

theorem iterate_native_mismatch_sound (qf : String → Except Unit entry_time)
    (d : String) (es : List FSEntry) (c : Nat) :
    ∀ p a b, iterate_native (some qf) d es c = .error (.mismatch p a b) →
      ¬ consistent a b := by
  induction d, es, c using iterate_native.induct (some qf) <;>
    intro p a b h <;> simp_all [iterate_native]
  all_goals
    exact crossCheck_mismatch_not_consistent _ _ _ _ _ _ _ (by assumption)

theorem crossCheck_ok_consistent (qf : String → Except Unit entry_time)
    (p : String) (isDir : Bool) (t et : entry_time)
    (h : crossCheck (some qf) p isDir t = .ok ()) (hq : qf p = .ok et) :
    consistent t et := by
  by_cases hc : consistent t et
  · exact hc
  · simp [crossCheck, hq, hc] at h

theorem iterate_native_ok_pairs (qf : String → Except Unit entry_time)
    (d : String) (es : List FSEntry) (c : Nat) :
    ∀ n, iterate_native (some qf) d es c = .ok n →
      ∀ ab ∈ crossPairs qf d es, consistent ab.1 ab.2 := by
  induction d, es, c using iterate_native.induct (some qf) with
  | case1 d c =>
    intro n h ab hab
    simp [crossPairs] at hab
  | case2 d nm t rest c hdot ih =>
    intro n h ab hab
    simp only [iterate_native, hdot, if_true] at h
    simp only [crossPairs, hdot, if_true] at hab
    exact ih n h ab hab
  | case3 d nm t rest c hdot e hcc =>
    intro n h ab hab
    simp [iterate_native, hdot, hcc] at h
  | case4 d nm t rest c hdot u hcc ih =>
    intro n h ab hab
    simp only [iterate_native, hdot, if_false, hcc] at h
    simp only [crossPairs, hdot, if_false, List.mem_append] at hab
    rcases hab with hm | hr
    · cases hq : qf (d ++ "\\" ++ nm) with
      | error u2 => rw [hq] at hm; simp at hm
      | ok et =>
        rw [hq] at hm
        simp at hm
        subst hm
        exact crossCheck_ok_consistent qf _ false t et hcc hq
    · exact ih n h ab hr
  | case5 d nm t ch rest c hdot ih =>
    intro n h ab hab
    simp only [iterate_native, hdot, if_true] at h
    simp only [crossPairs, hdot, if_true] at hab
    exact ih n h ab hab
  | case6 d nm t ch rest c hdot e hcc =>
    intro n h ab hab
    simp [iterate_native, hdot, hcc] at h
  | case7 d nm t ch rest c hdot u hcc e hch ihch =>
    intro n h ab hab
    simp [iterate_native, hdot, hcc, hch] at h
  | case8 d nm t ch rest c hdot u hcc c2 hch ihch ihrest =>
    intro n h ab hab
    simp only [iterate_native, hdot, if_false, hcc, hch] at h
    simp only [crossPairs, hdot, if_false, List.mem_append] at hab
    rcases hab with (hm | hc) | hr
    · cases hq : qf (d ++ "\\" ++ nm) with
      | error u2 => rw [hq] at hm; simp at hm
      | ok et =>
        rw [hq] at hm
        simp at hm
        subst hm
        exact crossCheck_ok_consistent qf _ true t et hcc hq
    · exact ihch c2 hch ab hc
    · exact ihrest n h ab hr

theorem iterate_native_mismatch_immediate (qf : String → Except Unit entry_time)
    (d n : String) (t : entry_time) (ch rest : List FSEntry) (c : Nat)
    (et : entry_time) (hdot : ¬ (n = "." ∨ n = ".."))
    (hq : qf (d ++ "\\" ++ n) = .ok et) (hc : ¬ consistent t et) :
    iterate_native (some qf) d (FSEntry.dir n t ch :: rest) c =
      .error (.mismatch (d ++ "\\" ++ n ++ "\\") t et) ∧
    iterate_native (some qf) d (FSEntry.file n t :: rest) c =
      .error (.mismatch (d ++ "\\" ++ n) t et) := by
  constructor <;> simp_all [iterate_native, crossCheck]

/-- C3: for both traversal mechanisms, regardless of whether a cross-check
query is configured, a traversal that completes returns a count equal to
the running count plus the number of entries other than the dot entries
across all visited levels, each counted exactly once whether file or
directory; the dot entries are always skipped and never counted. -/
theorem c3_traversal_entry_count (q : Option (String → Except Unit entry_time))
    (d : String) (es : List FSEntry) (c : Nat) :
    (∀ n, iterate_native q d es c = .ok n → n = c + countNonDot es) ∧
    (∀ n, iterate_opendir q d es c = .ok n → n = c + countNonDot es) :=
  ⟨iterate_native_count q d es c, iterate_opendir_count q d es c⟩

/-- Witness for C3: the tree root containing a.txt and sub containing
b.txt (with a dot entry in the listing) counts exactly 3 entries. -/
theorem c3_traversal_entry_count_witness :
    3 = 0 + countNonDot [FSEntry.file "." ⟨0, 0⟩, FSEntry.file "a.txt" ⟨1, 1⟩,
      FSEntry.dir "sub" ⟨2, 2⟩ [FSEntry.file "b.txt" ⟨3, 3⟩]] :=
  (c3_traversal_entry_count none "root"
      [FSEntry.file "." ⟨0, 0⟩, FSEntry.file "a.txt" ⟨1, 1⟩,
       FSEntry.dir "sub" ⟨2, 2⟩ [FSEntry.file "b.txt" ⟨3, 3⟩]] 0).1 3
    (by simp [iterate_native, crossCheck])

/-- C1 (amended): in the native traversal with a second, independent query
mechanism configured, the engine compares the enumeration-sourced times
against the re-queried times of every visited entry under the rule of
equal modification and enumeration access at most the queried access: a
reported mismatch always carries two inconsistent entry_time values, a
completed traversal has found every compared pair consistent, and an
inconsistent entry aborts the traversal immediately -- whatever follows
or lies below it -- reporting both entry_time values and the path, with a
trailing separator exactly when the entry is a directory. (The opendir
traversal, by contrast, performs no comparison.) -/
theorem c1_native_cross_check_rule (qf : String → Except Unit entry_time)
    (d : String) (es : List FSEntry) (c : Nat) :
    (∀ p a b, iterate_native (some qf) d es c = .error (.mismatch p a b) →
      ¬ consistent a b) ∧
    (∀ n, iterate_native (some qf) d es c = .ok n →
      ∀ ab ∈ crossPairs qf d es, consistent ab.1 ab.2) ∧
    (∀ nm t ch rest et, ¬ (nm = "." ∨ nm = "..") →
      qf (d ++ "\\" ++ nm) = .ok et → ¬ consistent t et →
      iterate_native (some qf) d (FSEntry.dir nm t ch :: rest) c =
        .error (.mismatch (d ++ "\\" ++ nm ++ "\\") t et) ∧
      iterate_native (some qf) d (FSEntry.file nm t :: rest) c =
        .error (.mismatch (d ++ "\\" ++ nm) t et)) :=
  ⟨iterate_native_mismatch_sound qf d es c,
   iterate_native_ok_pairs qf d es c,
   fun nm t ch rest et hdot hq hc =>
     iterate_native_mismatch_immediate qf d nm t ch rest c et hdot hq hc⟩

/-- Witness for C1: a directory entry whose re-queried modification time
differs aborts the native traversal at once with the mismatch report, the
path carrying a trailing separator. -/
theorem c1_native_cross_check_rule_witness :
    iterate_native (some (fun _ => .ok ⟨6, 5⟩)) "r"
      [FSEntry.dir "s" ⟨5, 5⟩ []] 0 =
      .error (.mismatch ("r" ++ "\\" ++ "s" ++ "\\") ⟨5, 5⟩ ⟨6, 5⟩) :=
  ((c1_native_cross_check_rule (fun _ => .ok ⟨6, 5⟩) "r"
      [FSEntry.dir "s" ⟨5, 5⟩ []] 0).2.2 "s" ⟨5, 5⟩ [] [] ⟨6, 5⟩
    (by simp) rfl (by decide)).1

/-- C1 counterexample: in the opendir traversal with a second query
mechanism configured, a visited entry whose enumerated times disagree
with the re-queried times -- here even in the modification field -- is
not reported: the invocation completes successfully, so the claimed
comparison does not happen in this traversal. -/
theorem c1_opendir_no_cross_check_counterexample :
    iterate_opendir (some (fun _ => .ok ⟨100, 100⟩)) "d"
      [FSEntry.file "a" ⟨0, 0⟩] 0 = .ok 1 ∧
    ¬ consistent ⟨0, 0⟩ ⟨100, 100⟩ := by
  constructor
  · simp [iterate_opendir, opendirQuery]
  · decide


/-- The nanosecond remainder of a nonnegative timestamp is its tick count
modulo one second, nonnegative and below one second. -/
theorem tsNanos_of_nonneg (ts : Int) (h : 0 ≤ ts) :
    tsNanos ts = ts % 1000000000 ∧ 0 ≤ tsNanos ts ∧
    tsNanos ts < 1000000000 := by
  have hd : tsSeconds ts = ts / 1000000000 :=
    Int.tdiv_eq_ediv h (by norm_num)
  have he : tsNanos ts = ts % 1000000000 := by
    rw [tsNanos, hd, Int.emod_def]
    ring
  refine ⟨he, ?_, ?_⟩
  · rw [he]; exact Int.emod_nonneg ts (by norm_num)
  · rw [he]; exact Int.emod_lt_of_pos ts (by norm_num)

/-- Bound on the number of decimal digits. -/
theorem decDigits_length_le : ∀ (k n : Nat), n < 10 ^ k →
    (decDigits n).length ≤ k := by
  intro k
  induction k with
  | zero =>
    intro n h
    have hn : n = 0 := by omega
    subst hn
    simp [decDigits]
  | succ k ih =>
    intro n h
    match n with
    | 0 => simp [decDigits]
    | m + 1 =>
      have hd : (m + 1) / 10 < 10 ^ k := by
        rw [Nat.div_lt_iff_lt_mul (by norm_num)]
        calc m + 1 < 10 ^ (k + 1) := h
          _ = 10 ^ k * 10 := by ring
      have hr := ih _ hd
      simp only [decDigits, List.length_append, List.length_cons,
        List.length_nil]
      omega

/-- The nine-wide zero-filled field of a nanosecond remainder has exactly
nine characters. -/
theorem padNine_length (r : Int) (h0 : 0 ≤ r) (h9 : r < 1000000000) :
    (padNine r).length = 9 := by
  have hnot : ¬ r < 0 := by omega
  have hlen : (intDecRepr r).length ≤ 9 := by
    rw [intDecRepr, if_neg hnot, decRepr]
    by_cases hz : r.toNat = 0
    · simp [hz]
    · rw [if_neg hz]
      refine decDigits_length_le 9 r.toNat ?_
      have h10 : (10 : Nat) ^ 9 = 1000000000 := by norm_num
      omega
  rw [padNine, List.length_append, List.length_replicate]
  omega

/-- When the sentinel shortcut does not apply and the format string fits
the buffer, the timestamp formatter runs the scanning loop. -/
theorem to_stream_timestamp_run (sigma : List Char → List Char) (ts : Int)
    (format : List Char) (special : Bool) (w : Nat)
    (hts : 0 ≤ ts) (h0 : ts ≠ timestamp_nonexistent)
    (h1 : ts ≠ timestamp_unreal) (hlen : format.length ≤ 255) :
    to_stream_timestamp sigma ts format special w =
      scanFmt sigma (tsNanos ts) w [] format := by
  have g1 : ¬ (special = true ∧ ts = timestamp_unknown) := by
    rintro ⟨-, h⟩
    rw [timestamp_unknown] at h
    omega
  have g2 : ¬ (special = true ∧ ts = timestamp_nonexistent) :=
    fun h => h0 h.2
  have g3 : ¬ (special = true ∧ ts = timestamp_unreal) :=
    fun h => h1 h.2
  unfold to_stream_timestamp
  rw [if_neg g1, if_neg g2, if_neg g3, if_neg (by omega)]

/-- A chunk free of percent characters is accumulated verbatim for the
host formatter. -/
theorem scanFmt_chunk_append (sigma : List Char → List Char) (r : Int)
    (w : Nat) : ∀ (pre : List Char), (∀ ch ∈ pre, ch ≠ '%') →
    ∀ (acc rest : List Char),
      scanFmt sigma r w acc (pre ++ rest) =
        scanFmt sigma r w (acc ++ pre) rest := by
  intro pre
  induction pre with
  | nil => intro _ acc rest; simp
  | cons c pre ih =>
    intro h acc rest
    have hc : c ≠ '%' := h c (by simp)
    have hstep : scanFmt sigma r w acc (c :: (pre ++ rest)) =
        scanFmt sigma r w (acc ++ [c]) (pre ++ rest) := by
      simp [scanFmt, hc]
    rw [List.cons_append, hstep, ih (fun x hx => h x (by simp [hx])),
      List.append_assoc]
    simp


/-- The scanning loop of a trailing percent-free chunk flushes it. -/
theorem scanFmt_plain_tail (sigma : List Char → List Char) (r : Int)
    (w : Nat) (suf : List Char) (hsuf : ∀ ch ∈ suf, ch ≠ '%') :
    scanFmt sigma r w [] suf = .ok (flushChunk sigma suf) := by
  have h := scanFmt_chunk_append sigma r w suf hsuf [] []
  simpa [scanFmt] using h

/-- C4: for a format string holding one nanosecond directive with an
optional separator between percent-free text, and a nonnegative
non-sentinel timestamp, the formatted output is the delegated text with
the directive expanded to the separator (when present) followed by the
remainder zero-padded to exactly nine characters when the remainder is
nonzero, and to nothing at all -- separator included -- when the
remainder is zero. -/
theorem c4_ns_directive_expansion (sigma : List Char → List Char) (ts : Int)
    (special : Bool) (sep : Option Char) (pre suf : List Char)
    (hpre : ∀ ch ∈ pre, ch ≠ '%') (hsuf : ∀ ch ∈ suf, ch ≠ '%')
    (hsep : sep ≠ some 'N') (hts : 0 ≤ ts)
    (h0 : ts ≠ timestamp_nonexistent) (h1 : ts ≠ timestamp_unreal)
    (hlen : pre.length + suf.length ≤ 250) :
    to_stream_timestamp sigma ts (pre ++ nsDirective sep ++ suf) special 0 =
      .ok (flushChunk sigma pre ++ nsField sep (tsNanos ts) ++
        flushChunk sigma suf) ∧
    (tsNanos ts ≠ 0 →
      nsField sep (tsNanos ts) =
        sepText sep ++ padNine (tsNanos ts) ∧
      (padNine (tsNanos ts)).length = 9) ∧
    (tsNanos ts = 0 → nsField sep (tsNanos ts) = []) := by
  obtain ⟨-, hge, hlt⟩ := tsNanos_of_nonneg ts hts
  refine ⟨?_, ?_, ?_⟩
  · have hlen2 : (pre ++ nsDirective sep ++ suf).length ≤ 255 := by
      rcases sep with - | d <;>
        simp [nsDirective, sepText, List.length_append] <;> omega
    rw [to_stream_timestamp_run sigma ts _ special 0 hts h0 h1 hlen2,
      List.append_assoc,
      scanFmt_chunk_append sigma (tsNanos ts) 0 pre hpre [] _]
    have hsuf2 := scanFmt_plain_tail sigma (tsNanos ts) 0 suf hsuf
    rcases sep with - | d
    · simp [nsDirective, sepText, scanFmt, hsuf2]
    · have hd : d ≠ 'N' := fun h => hsep (by rw [h])
      simp [nsDirective, sepText, scanFmt, hd, hsuf2]
  · intro hr
    rw [nsField, if_neg hr]
    exact ⟨rfl, padNine_length _ hge hlt⟩
  · intro hr
    rw [nsField, if_pos hr]

/-- Witness for C4: concrete text around a dot-separated directive on a
timestamp with remainder five formats to the text, the dot and the
nine-wide zero-filled remainder. -/
theorem c4_ns_directive_expansion_witness :
    to_stream_timestamp (fun l => l) 5
      (['T'] ++ nsDirective (some '.') ++ ['Z']) true 0 =
      .ok (flushChunk (fun l => l) ['T'] ++
        nsField (some '.') (tsNanos 5) ++ flushChunk (fun l => l) ['Z']) :=
  (c4_ns_directive_expansion (fun l => l) 5 true (some '.') ['T'] ['Z']
    (by decide) (by decide) (by decide) (by decide) (by decide)
    (by decide) (by decide)).1

/-- C7: a malformed custom directive -- an opening percent-bracket with
the N missing (directly, after a separator, or cut short by the end of
the string) or with the closing bracket missing -- is a fatal formatting
error; requesting stream padding (a nonzero output width) together with
the nanosecond directive is likewise fatal, surfaced at the directive;
and a doubled percent does not start a directive: it is delegated
verbatim to the host formatter inside its chunk. -/
theorem c7_malformed_padding_escape (sigma : List Char → List Char)
    (ts : Int) (special : Bool) (pre : List Char)
    (hpre : ∀ ch ∈ pre, ch ≠ '%') (hts : 0 ≤ ts)
    (h0 : ts ≠ timestamp_nonexistent) (h1 : ts ≠ timestamp_unreal) :
    (pre.length ≤ 253 →
      to_stream_timestamp sigma ts (pre ++ ['%', '[']) special 0 =
        .error .malformed) ∧
    (∀ d2, d2 ≠ 'N' → pre.length ≤ 252 →
      to_stream_timestamp sigma ts (pre ++ ['%', '[', d2]) special 0 =
        .error .malformed) ∧
    (pre.length ≤ 252 →
      to_stream_timestamp sigma ts (pre ++ ['%', '[', 'N']) special 0 =
        .error .malformed) ∧
    (∀ d2, d2 ≠ 'N' → pre.length ≤ 251 →
      to_stream_timestamp sigma ts (pre ++ ['%', '[', d2, 'N']) special 0 =
        .error .malformed) ∧
    (∀ w suf, w ≠ 0 → pre.length + suf.length ≤ 251 →
      to_stream_timestamp sigma ts (pre ++ nsDirective none ++ suf)
        special w = .error .padding) ∧
    (∀ suf, (∀ ch ∈ suf, ch ≠ '%') → pre.length + suf.length ≤ 253 →
      to_stream_timestamp sigma ts (pre ++ '%' :: '%' :: suf) special 0 =
        .ok (flushChunk sigma (pre ++ '%' :: '%' :: suf))) := by
  refine ⟨?_, ?_, ?_, ?_, ?_, ?_⟩
  · intro hlen
    rw [to_stream_timestamp_run sigma ts _ special 0 hts h0 h1
        (by simp [List.length_append]; omega),
      scanFmt_chunk_append sigma (tsNanos ts) 0 pre hpre [] _]
    simp [scanFmt]
  · intro d2 hd2 hlen
    rw [to_stream_timestamp_run sigma ts _ special 0 hts h0 h1
        (by simp [List.length_append]; omega),
      scanFmt_chunk_append sigma (tsNanos ts) 0 pre hpre [] _]
    simp [scanFmt, hd2]
  · intro hlen
    rw [to_stream_timestamp_run sigma ts _ special 0 hts h0 h1
        (by simp [List.length_append]; omega),
      scanFmt_chunk_append sigma (tsNanos ts) 0 pre hpre [] _]
    simp [scanFmt]
  · intro d2 hd2 hlen
    rw [to_stream_timestamp_run sigma ts _ special 0 hts h0 h1
        (by simp [List.length_append]; omega),
      scanFmt_chunk_append sigma (tsNanos ts) 0 pre hpre [] _]
    simp [scanFmt, hd2]
  · intro w suf hw hlen
    rw [to_stream_timestamp_run sigma ts _ special w hts h0 h1
        (by simp [nsDirective, sepText, List.length_append]; omega),
      List.append_assoc,
      scanFmt_chunk_append sigma (tsNanos ts) w pre hpre [] _]
    simp [nsDirective, sepText, scanFmt, hw]
  · intro suf hsuf hlen
    rw [to_stream_timestamp_run sigma ts _ special 0 hts h0 h1
        (by simp [List.length_append]; omega),
      scanFmt_chunk_append sigma (tsNanos ts) 0 pre hpre [] _]
    simp only [List.nil_append]
    have harm : scanFmt sigma (tsNanos ts) 0 pre ('%' :: '%' :: suf) =
        scanFmt sigma (tsNanos ts) 0 (pre ++ ['%', '%']) suf := by
      simp [scanFmt]
    rw [harm]
    have h2 := scanFmt_chunk_append sigma (tsNanos ts) 0 suf hsuf
      (pre ++ ['%', '%']) []
    simp only [List.append_nil] at h2
    rw [h2]
    simp [scanFmt]

/-- Witness for C7: the bare directive opener is malformed, the directive
under width three is a padding error, and a doubled percent ahead of the
directive text keeps it literal. -/
theorem c7_malformed_padding_escape_witness :
    to_stream_timestamp (fun l => l) 5 ['%', '['] false 0 =
      .error .malformed ∧
    to_stream_timestamp (fun l => l) 5 (nsDirective none) false 3 =
      .error .padding ∧
    to_stream_timestamp (fun l => l) 5 ('%' :: '%' :: "[N]".toList) false 0 =
      .ok (flushChunk (fun l => l) ('%' :: '%' :: "[N]".toList)) := by
  have h := c7_malformed_padding_escape (fun l => l) 5 false []
    (by decide) (by decide) (by decide) (by decide)
  exact ⟨h.1 (by norm_num),
    h.2.2.2.2.1 3 [] (by norm_num) (by norm_num),
    h.2.2.2.2.2 "[N]".toList (by decide) (by norm_num)⟩

/-- C8: a duration with zero nanosecond remainder of at least one minute
and under one hour selects the minute unit: the output is the host
rendering of the minute-second layout followed by the literal unit name,
with no decimal point and no nanosecond digits in between. -/
theorem c8_duration_minutes_layout (gmt : Nat → Tm)
    (strf : Tm → String → List Char) (d : Nat) (b : Bool)
    (h0 : d % 1000000000 = 0) (h1 : 60 * 1000000000 ≤ d)
    (h2 : d < 3600 * 1000000000) :
    to_stream_duration gmt strf d b =
      strf (gmt (d / 1000000000)) "%M:%S" ++ ' ' :: "minutes".toList := by
  have e1 : ¬ 365 * 24 * 60 * 60 ≤ d / 1000000000 := by omega
  have e2 : ¬ 31 * 24 * 60 * 60 ≤ d / 1000000000 := by omega
  have e3 : ¬ 24 * 60 * 60 ≤ d / 1000000000 := by omega
  have e4 : ¬ 60 * 60 ≤ d / 1000000000 := by omega
  have e5 : 60 ≤ d / 1000000000 := by omega
  have hns : d - d / 1000000000 * 1000000000 = 0 := by omega
  simp [to_stream_duration, e1, e2, e3, e4, e5, hns]

/-- Witness for C8: ninety seconds with trivial host formatters renders
the minute-second layout and the minutes unit. -/
theorem c8_duration_minutes_layout_witness :
    to_stream_duration (fun _ => ⟨0, 0, 0, 0, 0, 0⟩) (fun _ f => f.toList)
      (90 * 1000000000) true =
      "%M:%S".toList ++ ' ' :: "minutes".toList :=
  c8_duration_minutes_layout (fun _ => ⟨0, 0, 0, 0, 0, 0⟩)
    (fun _ f => f.toList) (90 * 1000000000) true (by norm_num)
    (by norm_num) (by norm_num)

end StatBenchmark
